import Mathlib

/-!
Verification development for the gateway request-routing and
protocol-normalization layer of the `tatumio/blockchain-mcp` repository.

The definitions below are a shallow embedding of the TypeScript source:

* `src/utils/chains.ts` — the chain-protocol registry and per-chain API
  configurations (`chainProtocolMap`, `chainApiConfigs`, `getChainProtocol`,
  `getChainApiConfig`, `getChainsByProtocol`);
* `src/services/gateway.ts` — `GatewayService` (vendor catalog search,
  `getGatewayUrl`, `executeRequest`, `executeChainRequest`,
  `executeJsonRpcRequest`, `executeRestRequestWithConfig`);
* `src/config.ts` — `TatumConfig` (`loadByoRpcConfig`, `getGatewayUrl`,
  `hasCustomRpcUrl`);
* `src/api-client.ts` — `TatumApiClient` (`buildUrl`, `executeRpcCall`,
  constructor header defaults).

JavaScript strings are Lean `String`s, JSON values are the inductive
`JValue`, and JavaScript truthiness / nullish checks are modelled
explicitly.  Network I/O (`fetch` / axios) is modelled by passing the
outcome of the network call as an explicit argument, so every function is
total and returns the envelope that the source computes for that outcome.
-/

set_option autoImplicit false

/-! ## Generic string helpers (JavaScript string primitives) -/

/-- Boolean prefix test on character lists. -/
def listIsPrefixOf : List Char → List Char → Bool
  | [], _ => true
  | _ :: _, [] => false
  | a :: as, b :: bs => a == b && listIsPrefixOf as bs

/-- Boolean substring test on character lists (JS `String.prototype.includes`). -/
def listContainsSub (pat : List Char) : List Char → Bool
  | [] => listIsPrefixOf pat []
  | l@(_ :: rest) => listIsPrefixOf pat l || listContainsSub pat rest

/-- JS `s.includes(pat)` for a string pattern. -/
def strContains (s pat : String) : Bool := listContainsSub pat.data s.data

/-- JS `s.includes(c)` for a single character. -/
def strContainsChar (s : String) (c : Char) : Bool := s.data.any (· == c)

/-- JS `s.startsWith(p)`. -/
def strStartsWith (s p : String) : Bool := listIsPrefixOf p.data s.data

/-- Replace every non-overlapping occurrence of `pat` (scanned left to
right) by `rep`, fuelled by an upper bound on the scan length so the
recursion is structural.  This models the JS `url.replace(new
RegExp(pat, 'g'), rep)` calls of the source for patterns that are literal
text (the keys the source interpolates contain no regex metacharacters). -/
def replaceAllFuel (pat rep : List Char) : Nat → List Char → List Char
  | _, [] => []
  | 0, l => l
  | fuel + 1, c :: rest =>
    if pat ≠ [] ∧ listIsPrefixOf pat (c :: rest) then
      rep ++ replaceAllFuel pat rep fuel ((c :: rest).drop pat.length)
    else
      c :: replaceAllFuel pat rep fuel rest

/-- String-level replace-all (the fuel `s.data.length` always suffices:
each step consumes at least one character). -/
def replaceAllS (s pat rep : String) : String :=
  ⟨replaceAllFuel pat.data rep.data s.data.length s.data⟩

/-- JS `s.split(sep)` helper: accumulator-based splitter on one character. -/
def splitCharAux (sep : Char) : List Char → List Char → List (List Char)
  | [], acc => [acc.reverse]
  | c :: rest, acc =>
    if c == sep then acc.reverse :: splitCharAux sep rest []
    else splitCharAux sep rest (c :: acc)

/-- JS `s.split(sep)` for a one-character separator. -/
def jsSplitChar (s : String) (sep : Char) : List String :=
  (splitCharAux sep s.data []).map (fun l => ⟨l⟩)

/-- JS `s.trim()` (whitespace stripped from both ends). -/
def jsTrim (s : String) : String :=
  ⟨((s.data.dropWhile Char.isWhitespace).reverse.dropWhile Char.isWhitespace).reverse⟩

/-- JS `s.replace(/^\//, '')`: strip one leading slash when present. -/
def stripSlash (s : String) : String :=
  match s.data with
  | '/' :: rest => ⟨rest⟩
  | _ => s

/-- JS `s.toUpperCase()` (ASCII model). -/
def toUpperStr (s : String) : String := ⟨s.data.map Char.toUpper⟩

/-! ## JSON values and JS parameter values -/

/-- JSON values as produced by `JSON.parse` / consumed by `JSON.stringify`. -/
inductive JValue where
  | jNull
  | jBool (b : Bool)
  | jNum (n : Int)
  | jStr (s : String)
  | jArr (elems : List JValue)
  | jObj (fields : List (String × JValue))

/-- JS truthiness of a `JValue` (objects and arrays are always truthy). -/
def jsTruthy : JValue → Bool
  | .jNull => false
  | .jBool b => b
  | .jNum n => n != 0
  | .jStr s => s != ""
  | .jArr _ => true
  | .jObj _ => true

/-- Whether a JSON value is the literal `null`. -/
def JValue.isJNull : JValue → Bool
  | .jNull => true
  | _ => false

/-- Field access `obj?.field`: `none` models JS `undefined`. -/
def getField : JValue → String → Option JValue
  | .jObj fields, name => (fields.find? (·.1 == name)).map (·.2)
  | _, _ => none

/-- The value of `obj?.field` when that value is truthy, `none` otherwise.
Used to model chains of `||` over optional field accesses. -/
def truthyField (v : JValue) (name : String) : Option JValue :=
  match getField v name with
  | some f => if jsTruthy f then some f else none
  | none => none

/-- Nullish (`undefined` / `null`) test used by `??` chains: a missing
field is `none`; a present `null` is `some .jNull`. -/
def nonNullishField (v : JValue) (name : String) : Option JValue :=
  match getField v name with
  | some .jNull => none
  | some f => some f
  | none => none

mutual

/-- JS `String(v)` coercion for the values the source feeds to
`encodeURIComponent` and `URLSearchParams`. -/
def jsStringOf : JValue → String
  | .jNull => "null"
  | .jBool b => if b then "true" else "false"
  | .jNum n => toString n
  | .jStr s => s
  | .jArr elems => String.intercalate "," (jsStringOfList elems)
  | .jObj _ => "[object Object]"

/-- Stringification of each element of an array (for `String([..])`). -/
def jsStringOfList : List JValue → List String
  | [] => []
  | v :: vs => jsStringOf v :: jsStringOfList vs

end

/-- A value held in a `Record<string, any>` parameter bag, distinguishing
`undefined` and `null` from ordinary (stringly) values. -/
inductive JSParam where
  | vUndefined
  | vNull
  | vStr (s : String)
deriving DecidableEq, Repr

/-- JS truthiness of a parameter value. -/
def jsTruthyParam : JSParam → Bool
  | .vUndefined => false
  | .vNull => false
  | .vStr s => s != ""

/-- JS `v !== undefined && v !== null`. -/
def isNullishParam : JSParam → Bool
  | .vUndefined => true
  | .vNull => true
  | .vStr _ => false

/-- JS `String(v)` for a parameter value (how `encodeURIComponent(v)`
coerces its argument). -/
def paramStr : JSParam → String
  | .vUndefined => "undefined"
  | .vNull => "null"
  | .vStr s => s

/-! ## encodeURIComponent -/

/-- Uppercase hexadecimal digit. -/
def hexDigitC (n : Nat) : Char :=
  if n < 10 then Char.ofNat (48 + n) else Char.ofNat (55 + n)

/-- Characters `encodeURIComponent` leaves unescaped:
`A-Z a-z 0-9 - _ . ! ~ * ' ( )`. -/
def isUnreservedC (c : Char) : Bool :=
  c.isAlphanum || c == '-' || c == '_' || c == '.' || c == '!' ||
  c == '~' || c == '*' || c == Char.ofNat 39 || c == '(' || c == ')'

/-- UTF-8 bytes of a code point. -/
def utf8Bytes (n : Nat) : List Nat :=
  if n < 128 then [n]
  else if n < 2048 then [192 + n / 64, 128 + n % 64]
  else if n < 65536 then [224 + n / 4096, 128 + (n / 64) % 64, 128 + n % 64]
  else [240 + n / 262144, 128 + (n / 4096) % 64, 128 + (n / 64) % 64, 128 + n % 64]

/-- Percent-encoding of one character under `encodeURIComponent`. -/
def encChar (c : Char) : List Char :=
  if isUnreservedC c then [c]
  else (utf8Bytes c.toNat).flatMap (fun b => ['%', hexDigitC (b / 16), hexDigitC (b % 16)])

/-- JS `encodeURIComponent`. -/
def encodeURIComponent (s : String) : String := ⟨s.data.flatMap encChar⟩

/-- Characters `URLSearchParams` serialization leaves unescaped
(`application/x-www-form-urlencoded`): alphanumerics and `* - . _`;
a space becomes `+`. -/
def isFormUnreservedC (c : Char) : Bool :=
  c.isAlphanum || c == '*' || c == '-' || c == '.' || c == '_'

/-- Form-encoding of one character under `URLSearchParams.toString`. -/
def formChar (c : Char) : List Char :=
  if c == ' ' then ['+']
  else if isFormUnreservedC c then [c]
  else (utf8Bytes c.toNat).flatMap (fun b => ['%', hexDigitC (b / 16), hexDigitC (b % 16)])

/-- `URLSearchParams` encoding of one string. -/
def formEncodeStr (s : String) : String := ⟨s.data.flatMap formChar⟩

/-- `URLSearchParams` serialization of appended `key=value` pairs. -/
def formEncodePairs (pairs : List (String × String)) : String :=
  String.intercalate "&" (pairs.map (fun kv => formEncodeStr kv.1 ++ "=" ++ formEncodeStr kv.2))

/-! ## Chain protocol registry (`src/utils/chains.ts`) -/

/-- Transport protocol of a chain. -/
inductive Protocol where
  | rest
  | jsonrpc
deriving DecidableEq, Repr

/-- Error-handling mode of a chain API configuration. -/
inductive ErrHandling where
  | strict
  | lenient
deriving DecidableEq, Repr

/-- Response format of a chain API configuration. -/
inductive RespFormat where
  | json
  | text
  | binary
deriving DecidableEq, Repr

/-- Per-chain API configuration (`ChainApiConfig` of `src/utils/chains.ts`;
the source field `basePathPrefix` is embedded as `basePath`). -/
structure ChainApiConfig where
  basePath : Option String
  defaultEndpoints : List String
  errHandling : Option ErrHandling
  respFormat : Option RespFormat
deriving DecidableEq, Repr

/-- The `chainProtocolMap` table of `src/utils/chains.ts`, in source order. -/
def chainProtocolMap : List (String × Protocol) :=
  [("ton-mainnet", .rest), ("ton-testnet", .rest),
   ("stellar-mainnet", .rest), ("stellar-testnet", .rest),
   ("algorand-mainnet", .rest), ("algorand-testnet", .rest),
   ("cardano-mainnet", .rest), ("cardano-testnet", .rest),
   ("flow-mainnet", .rest), ("flow-testnet", .rest),
   ("kadena-mainnet", .rest), ("kadena-testnet", .rest),
   ("tezos-mainnet", .rest), ("tezos-testnet", .rest),
   ("vechain-mainnet", .rest), ("vechain-testnet", .rest),
   ("ethereum-mainnet", .jsonrpc), ("ethereum-sepolia", .jsonrpc),
   ("ethereum-holesky", .jsonrpc),
   ("polygon-mainnet", .jsonrpc), ("polygon-amoy", .jsonrpc),
   ("bsc-mainnet", .jsonrpc), ("bsc-testnet", .jsonrpc),
   ("avalanche-mainnet", .jsonrpc), ("avalanche-testnet", .jsonrpc),
   ("fantom-mainnet", .jsonrpc), ("fantom-testnet", .jsonrpc),
   ("celo-mainnet", .jsonrpc), ("celo-testnet", .jsonrpc),
   ("cronos-mainnet", .jsonrpc), ("cronos-testnet", .jsonrpc),
   ("klaytn-mainnet", .jsonrpc), ("klaytn-testnet", .jsonrpc),
   ("flare-mainnet", .jsonrpc), ("flare-testnet", .jsonrpc),
   ("haqq-mainnet", .jsonrpc), ("haqq-testnet", .jsonrpc),
   ("arbitrum-mainnet", .jsonrpc), ("arbitrum-testnet", .jsonrpc),
   ("optimism-mainnet", .jsonrpc), ("optimism-testnet", .jsonrpc),
   ("base-mainnet", .jsonrpc), ("base-testnet", .jsonrpc),
   ("bitcoin-mainnet", .jsonrpc), ("bitcoin-testnet", .jsonrpc),
   ("litecoin-mainnet", .jsonrpc), ("litecoin-testnet", .jsonrpc),
   ("dogecoin-mainnet", .jsonrpc), ("dogecoin-testnet", .jsonrpc),
   ("zcash-mainnet", .jsonrpc), ("zcash-testnet", .jsonrpc),
   ("solana-mainnet", .jsonrpc), ("solana-testnet", .jsonrpc),
   ("tron-mainnet", .jsonrpc), ("tron-testnet", .jsonrpc)]

/-- The `chainApiConfigs` table of `src/utils/chains.ts`. -/
def chainApiConfigs : List (String × ChainApiConfig) :=
  [("cardano-mainnet",
     ⟨some "/api/v0", ["/blocks/latest", "/epochs/latest", "/network"], some .strict, some .json⟩),
   ("cardano-testnet",
     ⟨some "/api/v0", ["/blocks/latest", "/epochs/latest", "/network"], some .strict, some .json⟩),
   ("flow-mainnet",
     ⟨some "/v1", ["/blocks", "/network/parameters", "/node/version_info"], some .lenient, some .json⟩),
   ("flow-testnet",
     ⟨some "/v1", ["/blocks", "/network/parameters", "/node/version_info"], some .lenient, some .json⟩),
   ("kadena-mainnet",
     ⟨some "/chainweb/0.0/mainnet01", ["/config", "/cut", "/chain/0/header"], some .lenient, some .json⟩),
   ("kadena-testnet",
     ⟨some "/chainweb/0.0/testnet04", ["/config", "/cut", "/chain/0/header"], some .lenient, some .json⟩)]

/-- `getChainProtocol` of `src/utils/chains.ts`. -/
def getChainProtocol (chainName : String) : Option Protocol :=
  (chainProtocolMap.find? (·.1 == chainName)).map (·.2)

/-- `getChainApiConfig` of `src/utils/chains.ts` (default configuration when
the chain has no entry). -/
def getChainApiConfig (chainName : String) : ChainApiConfig :=
  match chainApiConfigs.find? (·.1 == chainName) with
  | some kv => kv.2
  | none => ⟨none, [], some .lenient, some .json⟩

/-- `getChainsByProtocol` of `src/utils/chains.ts`. -/
def getChainsByProtocol (p : Protocol) : List String :=
  (chainProtocolMap.filter (·.2 == p)).map (·.1)

/-! ## Vendor catalog and gateway URL resolution
(`src/services/gateway.ts`, `src/config.ts`) -/

/-- One chain entry of the vendor catalog (`GatewayChain` of `types.ts`). -/
structure GatewayChain where
  chain : String
  gatewayName : String
  gatewayUrl : String
deriving DecidableEq, Repr

/-- One catalog gateway (`Gateway` of `types.ts`). -/
structure Gateway where
  name : String
  docs : String
  chains : List GatewayChain
deriving DecidableEq, Repr

/-- Catalog search of `GatewayService.getGatewayByChain` /
`GatewayService.getGatewayUrl`: first gateway whose chain list has an entry
matching the identifier by canonical `chain` name or by `gatewayName`
alias; its `gatewayUrl` is returned. -/
def gatewayGetGatewayUrl (gateways : List Gateway) (chainName : String) : Option String :=
  gateways.findSome? (fun g =>
    (g.chains.find? (fun c => c.chain == chainName || c.gatewayName == chainName)).map
      (·.gatewayUrl))

/-- First-match association lookup (JS `Map.get`). -/
def lookupStr : List (String × String) → String → Option String
  | [], _ => none
  | kv :: rest, k => if kv.1 == k then some kv.2 else lookupStr rest k

/-- JS `Map.set`: overwrite the existing entry in place, else append. -/
def upsertStr : List (String × String) → String → String → List (String × String)
  | [], k, v => [(k, v)]
  | kv :: rest, k, v => if kv.1 == k then (k, v) :: rest else kv :: upsertStr rest k v

/-- One `chain,url` pair of `loadByoRpcConfig`: split on the comma, trim,
and store the pair only when both the chain and the URL are non-empty. -/
def byoStep (m : List (String × String)) (pair : String) : List (String × String) :=
  match (jsSplitChar pair ',').map jsTrim with
  | c :: u :: _ => if c ≠ "" ∧ u ≠ "" then upsertStr m c u else m
  | _ => m

/-- `TatumConfig.loadByoRpcConfig` of `src/config.ts`: parse the
`BYO_RPC_CONFIG` environment string (`;`-separated `chain,url` pairs,
entries trimmed, empty pairs skipped, pairs lacking a chain or a URL
skipped) into the custom RPC override table. -/
def loadByoRpcConfig (env : String) : List (String × String) :=
  (((jsSplitChar env ';').map jsTrim).filter (· ≠ "")).foldl byoStep []

/-- The configuration state of `TatumConfig` relevant to gateway
resolution: the custom RPC override table and the vendor catalog. -/
structure TatumConfigModel where
  byoRpcUrls : List (String × String)
  catalog : List Gateway

/-- `TatumConfig.hasCustomRpcUrl`. -/
def hasCustomRpcUrl (cfg : TatumConfigModel) (chain : String) : Bool :=
  (cfg.byoRpcUrls.find? (·.1 == chain)).isSome

/-- `TatumConfig.getGatewayUrl` of `src/config.ts`: a truthy custom
override URL is returned directly; otherwise the vendor catalog is searched. -/
def tatumGetGatewayUrl (cfg : TatumConfigModel) (chain : String) : Option String :=
  match lookupStr cfg.byoRpcUrls chain with
  | some u => if u == "" then gatewayGetGatewayUrl cfg.catalog chain else some u
  | none => gatewayGetGatewayUrl cfg.catalog chain

/-! ## Outbound requests -/

/-- Body of an outbound HTTP request: none (GET), a JSON-RPC envelope
(`JSON.stringify({jsonrpc, id, method, params})`), or a directly
serialized value (`JSON.stringify(params)` on the REST POST path). -/
inductive RequestBody where
  | noBody
  | jsonRpc (jsonrpc : String) (id : Nat) (method : String) (params : JValue)
  | raw (v : JValue)

/-- Whether a request body is a JSON-RPC envelope. -/
def RequestBody.isJsonRpc : RequestBody → Bool
  | .jsonRpc _ _ _ _ => true
  | _ => false

/-- An outbound HTTP request as handed to the HTTP layer. -/
structure HttpRequest where
  url : String
  httpMethod : String
  headers : List (String × String)
  body : RequestBody

/-- First-match lookup of a header value. -/
def headerLookup (hs : List (String × String)) (name : String) : Option String :=
  (hs.find? (·.1 == name)).map (·.2)

/-- `GatewayService.executeJsonRpcRequest` (request construction):
`POST url` with `Content-Type` and `X-API-Key` headers and the
`{jsonrpc: '2.0', id: 1, method, params}` body. -/
def jsonRpcWire (apiKey url method : String) (params : JValue) : HttpRequest :=
  { url := url
    httpMethod := "POST"
    headers := [("Content-Type", "application/json"), ("X-API-Key", apiKey)]
    body := .jsonRpc "2.0" 1 method params }

/-- The `[httpMethod, restPath]` destructuring of
`GatewayService.executeRestRequestWithConfig`: split on spaces when the
method contains one (taking the first two segments), else default the
verb to `GET`. -/
def splitVerbPath (methodPath : String) : String × String :=
  if strContainsChar methodPath ' ' then
    match jsSplitChar methodPath ' ' with
    | a :: b :: _ => (a, b)
    | [a] => (a, "")
    | [] => ("", "")
  else ("GET", methodPath)

/-- `Object.entries(v)` for the query-parameter flattening: fields of an
object, or indexed entries of an array (`typeof [] === 'object'`). -/
def jsEntries : JValue → Option (List (String × JValue))
  | .jObj fields => some fields
  | .jArr elems => some (elems.enum.map (fun p => (toString p.1, p.2)))
  | _ => none

/-- Query string built by `executeRestRequestWithConfig` for a GET request:
when `params` is a non-empty array whose single element is an object,
its non-nullish entries are appended as `URLSearchParams`. -/
def restQueryString (params : Option JValue) : String :=
  match params with
  | some (.jArr elems) =>
    if elems.length > 0 then
      match elems with
      | [one] =>
        match jsEntries one with
        | some entries =>
          formEncodePairs ((entries.filter (fun kv => !kv.2.isJNull)).map
            (fun kv => (kv.1, jsStringOf kv.2)))
        | none => ""
      | _ => ""
    else ""
  | _ => ""

/-- JS truthiness of the optional `params` argument (`undefined`, `null`
are falsy; every object, array or non-empty primitive is truthy). -/
def truthyOptJValue : Option JValue → Bool
  | none => false
  | some v => jsTruthy v

/-- Request-construction half of
`GatewayService.executeRestRequestWithConfig`: verb/path split, query
string for GET, `Content-Type` / `X-API-Key` headers, JSON body for POST. -/
def restWire (apiKey baseUrl methodPath : String) (params : Option JValue) : HttpRequest :=
  let vp := splitVerbPath methodPath
  let url0 := baseUrl ++ vp.2
  let qs := if toUpperStr vp.1 == "GET" then restQueryString params else ""
  let url := if qs ≠ "" then url0 ++ (if strContainsChar url0 '?' then "&" else "?") ++ qs else url0
  { url := url
    httpMethod := toUpperStr vp.1
    headers := [("Content-Type", "application/json"), ("X-API-Key", apiKey)]
    body :=
      if toUpperStr vp.1 == "POST" ∧ truthyOptJValue params then
        match params with
        | some v => .raw v
        | none => .noBody
      else .noBody }

/-- `GatewayService.executeRequest` (the entry wired to the
`gateway_execute_rpc` tool in `src/index.ts`): a method containing a space
is dispatched as REST (`"<HTTP_VERB> <path>"`), otherwise as JSON-RPC with
the supplied body as `params`. -/
def executeRequestWire (apiKey gatewayUrl method : String) (body : JValue) : HttpRequest :=
  if strContainsChar method ' ' then restWire apiKey gatewayUrl method (some body)
  else jsonRpcWire apiKey gatewayUrl method body

/-! ## Chain-aware REST method formatting and dispatch
(`GatewayService.executeChainRequest`) -/

/-- The REST method formatting of `GatewayService.executeChainRequest`:
bare method names (no space, not starting with `GET`/`POST`) are turned
into `GET` paths with the configured base path prefix; then the
kadena/cardano/flow family rewrites apply. -/
def restMethodFor (chainName method : String) : String :=
  let cfg := getChainApiConfig chainName
  let base :=
    if strContainsChar method ' ' = false ∧ strStartsWith method "GET" = false ∧
        strStartsWith method "POST" = false then
      match cfg.basePath with
      | some p =>
        if p ≠ "" ∧ strStartsWith method p = false then
          "GET " ++ p ++ "/" ++ stripSlash method
        else "GET /" ++ stripSlash method
      | none => "GET /" ++ stripSlash method
    else method
  if strStartsWith chainName "kadena-" then
    if strContains method "chainweb" = false then
      "GET /chainweb/0.0/" ++
        (if strContains chainName "testnet" then "testnet04" else "mainnet01") ++
        "/" ++ stripSlash method
    else base
  else if strStartsWith chainName "cardano-" then
    if strContains method "api/v0" = false then "GET /api/v0/" ++ stripSlash method else base
  else if strStartsWith chainName "flow-" then
    if strContains method "v1" = false then "GET /v1/" ++ stripSlash method else base
  else base

/-- The response envelope shape of the source (`TatumApiResponse` of
`types.ts`): optional `data`, optional `error`, `status`, `statusText`.
`data = none` models an absent field; `data = some .jNull` a field
explicitly set to `null`. -/
structure TatumApiResponse where
  data : Option JValue
  error : Option JValue
  status : Nat
  statusText : String

/-- Dispatch decision of `GatewayService.executeChainRequest`: either an
immediate envelope with no network call, or a REST / JSON-RPC dispatch to
the resolved gateway URL. -/
inductive ChainDispatch where
  | noDispatch (env : TatumApiResponse)
  | restDispatch (gatewayUrl restMethod : String) (params : List JValue) (cfg : ChainApiConfig)
  | jsonrpcDispatch (gatewayUrl method : String) (params : List JValue)

/-- `GatewayService.executeChainRequest`: resolve the gateway URL from the
vendor catalog (404 envelope when absent or falsy), then dispatch by the
registry protocol — REST chains get the formatted REST method, every other
chain (including chains unknown to the registry) goes to JSON-RPC. -/
def executeChainRequestDispatch (gateways : List Gateway) (chainName method : String)
    (params : List JValue) : ChainDispatch :=
  let notFound : TatumApiResponse :=
    { data := none
      error := some (.jStr ("Gateway URL not found for chain: " ++ chainName))
      status := 404
      statusText := "Not Found" }
  match gatewayGetGatewayUrl gateways chainName with
  | none => .noDispatch notFound
  | some u =>
    if u == "" then .noDispatch notFound
    else
      match getChainProtocol chainName with
      | some .rest => .restDispatch u (restMethodFor chainName method) params (getChainApiConfig chainName)
      | _ => .jsonrpcDispatch u method params

/-! ## Response classification (`GatewayService.executeRestRequestWithConfig`) -/

/-- Outcome of a `fetch` call: either a network-level failure (no HTTP
response at all) or an HTTP response with status, status text, an optional
`content-type` header and a body text. -/
inductive FetchOutcome where
  | networkError (msg : String)
  | httpResponse (status : Nat) (statusText : String) (contentType : Option String) (bodyText : String)

/-- Body handling of `executeRestRequestWithConfig` (lines 346-374): parse
as JSON when the content type indicates JSON and the body is non-empty
(empty body becomes `null`); non-JSON bodies are kept as text; a JSON
parse failure falls back to the body text.  `JSON.parse` is an external
builtin and is passed in as `parse`; the source's fallback re-read of the
response body is modelled as yielding the same text. -/
def parseRestBody (parse : String → Option JValue) (contentType : Option String)
    (bodyText : String) : JValue :=
  let ctJson := match contentType with
    | some ct => strContains ct "application/json"
    | none => false
  if ctJson then
    if jsTrim bodyText ≠ "" then
      match parse bodyText with
      | some j => j
      | none => .jStr bodyText
    else .jNull
  else .jStr bodyText

/-- The error message selected on a non-2xx response:
`data?.message || data?.error || "HTTP <status>: <statusText>"`. -/
def restErrorMessage (body : JValue) (status : Nat) (statusText : String) : JValue :=
  match truthyField body "message" with
  | some m => m
  | none =>
    match truthyField body "error" with
    | some e => e
    | none => .jStr ("HTTP " ++ toString status ++ ": " ++ statusText)

/-- Classification of an HTTP response by
`executeRestRequestWithConfig` (lines 376-391): `response.ok`
(status 200-299) returns the parsed body as `data`; otherwise the
extracted error message is returned as `error` with the parsed body still
attached as `data`. -/
def classifyRestResponse (status : Nat) (statusText : String) (body : JValue) : TatumApiResponse :=
  if 200 ≤ status ∧ status ≤ 299 then
    { data := some body, error := none, status := status, statusText := statusText }
  else
    { data := some body
      error := some (restErrorMessage body status statusText)
      status := status
      statusText := statusText }

/-- `GatewayService.executeRestRequestWithConfig`, response half: a total
function of the fetch outcome.  A network-level failure (the `catch`
branch, lines 392-399) yields the `500 / "Network Error"` envelope with
`data: null` and the message prefixed by `"Network error: "`; an HTTP
response is parsed and classified. -/
def executeRestRequestWithConfigO (parse : String → Option JValue)
    (outcome : FetchOutcome) : TatumApiResponse :=
  match outcome with
  | .networkError msg =>
    { data := some .jNull
      error := some (.jStr ("Network error: " ++ msg))
      status := 500
      statusText := "Network Error" }
  | .httpResponse status statusText contentType bodyText =>
    classifyRestResponse status statusText (parseRestBody parse contentType bodyText)

/-! ## TatumApiClient (`src/api-client.ts`) -/

/-- Default headers installed on the axios instance by the
`TatumApiClient` constructor (lines 119-126):
`Content-Type: application/json` and `X-API-Key: <context.apiKey>`. -/
def instanceDefaultHeaders (apiKey : String) : List (String × String) :=
  [("Content-Type", "application/json"), ("X-API-Key", apiKey)]

/-- Per-request headers built by `executeRpcCall` (lines 255-261):
`Content-Type` always; `X-API-Key` only when the chain has no custom RPC
override. -/
def rpcRequestHeaders (apiKey : String) (isCustomRpc : Bool) : List (String × String) :=
  ("Content-Type", "application/json") ::
    (if isCustomRpc then [] else [("X-API-Key", apiKey)])

/-- Axios header merging: the per-request header config is merged over the
instance default headers; a key present in the request config wins, a key
absent from it inherits the instance default.  (This is axios's documented
config merge; the same instance defaults are what authenticate the
header-less requests of `TatumApiClient.executeRequest`.) -/
def axiosMergeHeaders (defaults request : List (String × String)) : List (String × String) :=
  request ++ defaults.filter (fun d => !(request.any (fun r => r.1 == d.1)))

/-- Result of the synchronous part of `executeRpcCall`: either an
immediate envelope (validation or resolution failure, nothing sent), or
the HTTP request handed to `client.post` together with the per-request
header list it was built from. -/
inductive RpcCallStep where
  | immediate (env : TatumApiResponse)
  | send (req : HttpRequest)

/-- `TatumApiClient.executeRpcCall`, request half (lines 234-275):
validate chain/method, resolve the gateway URL through `TatumConfig`
(custom override first), fail fast with a 400 envelope when unresolved,
otherwise POST the JSON-RPC envelope with the key withheld from the
per-request headers for override chains. -/
def executeRpcCallStep (cfg : TatumConfigModel) (apiKey chain method : String)
    (params : JValue) : RpcCallStep :=
  if chain == "" || method == "" then
    .immediate { data := none, error := some (.jStr "Chain and method are required"),
                 status := 400, statusText := "Bad Request" }
  else
    let notFound : TatumApiResponse :=
      { data := none
        error := some (.jStr ("Gateway URL not found for chain: " ++ chain))
        status := 400
        statusText := "Bad Request" }
    match tatumGetGatewayUrl cfg chain with
    | none => .immediate notFound
    | some u =>
      if u == "" then .immediate notFound
      else
        .send { url := u
                httpMethod := "POST"
                headers := rpcRequestHeaders apiKey (hasCustomRpcUrl cfg chain)
                body := .jsonRpc "2.0" 1 method params }

/-- Outcome of the axios `post` call in `executeRpcCall`: success, a
rejected promise carrying an HTTP response, or a rejection with no
response (network-level failure). -/
inductive AxiosOutcome where
  | ok (status : Nat) (statusText : String) (data : JValue)
  | errResponse (status : Nat) (statusText : String) (data : JValue)
  | errNoResponse (message : String)

/-- Response half of `executeRpcCall` (lines 277-289): success envelopes
return the data; the catch branch selects
`error.response?.data?.error?.message ?? error.response?.data?.message ??
error.response?.statusText ?? error.message` with status
`error.response?.status ?? 0` and status text
`error.response?.statusText ?? 'Error'`. -/
def executeRpcCallRespond (outcome : AxiosOutcome) : TatumApiResponse :=
  match outcome with
  | .ok status statusText data =>
    { data := some data, error := none, status := status, statusText := statusText }
  | .errResponse status statusText data =>
    let msg : JValue :=
      match nonNullishField data "error" with
      | some errObj =>
        match nonNullishField errObj "message" with
        | some m => m
        | none =>
          match nonNullishField data "message" with
          | some m => m
          | none => .jStr statusText
      | none =>
        match nonNullishField data "message" with
        | some m => m
        | none => .jStr statusText
    { data := none, error := some msg, status := status, statusText := statusText }
  | .errNoResponse message =>
    { data := none, error := some (.jStr message), status := 0, statusText := "Error" }

/-! ## URL construction (`TatumApiClient.buildUrl`, lines 194-222) -/

/-- The `{key}` token searched for in a path template. -/
def tokenOf (k : String) : String := "\x7b" ++ k ++ "\x7d"

/-- JS property read `parameters[k]`: `vUndefined` when the key is absent. -/
def lookupParamV (ps : List (String × JSParam)) (k : String) : JSParam :=
  match ps.find? (·.1 == k) with
  | some kv => kv.2
  | none => .vUndefined

/-- JS property write `parameters[k] = v`: overwrite in place, else append
(a new key is enumerated last). -/
def upsertParam : List (String × JSParam) → String → JSParam → List (String × JSParam)
  | [], k, v => [(k, v)]
  | kv :: rest, k, v => if kv.1 == k then (k, v) :: rest else kv :: upsertParam rest k v

/-- One step of the substitution loop of `buildUrl`: when the current URL
contains the `{key}` token, replace every occurrence by the URL-encoded
value and record the key as used. -/
def substStep (st : String × List String) (kv : String × JSParam) : String × List String :=
  if strContains st.1 (tokenOf kv.1) then
    (replaceAllS st.1 (tokenOf kv.1) (encodeURIComponent (paramStr kv.2)), st.2 ++ [kv.1])
  else st

/-- The whole substitution loop (first `forEach` of `buildUrl`),
returning the substituted URL and the used-key set in insertion order. -/
def substFold (path : String) (ps : List (String × JSParam)) : String × List String :=
  ps.foldl substStep (path, [])

/-- The substituted URL alone, threaded recursively (specification-side
view of `substFold`). -/
def substUrlA (u : String) : List (String × JSParam) → String
  | [] => u
  | kv :: rest => substUrlA (substStep (u, []) kv).1 rest

/-- The keys recorded as used by the substitution loop, threaded
recursively (specification-side view of `substFold`). -/
def substNewA (u : String) : List (String × JSParam) → List String
  | [] => []
  | kv :: rest =>
    (if strContains u (tokenOf kv.1) then [kv.1] else []) ++
      substNewA (substStep (u, []) kv).1 rest

/-- The query-pair list built by the second `forEach` of `buildUrl`:
parameters not consumed by substitution and not `undefined`/`null`,
as URL-encoded `key=value` strings. -/
def queryPairsOf (path : String) (ps : List (String × JSParam)) : List String :=
  let used := (substFold path ps).2
  ps.filterMap (fun kv =>
    if !used.contains kv.1 && !isNullishParam kv.2 then
      some (encodeURIComponent kv.1 ++ "=" ++ encodeURIComponent (paramStr kv.2))
    else none)

/-- `TatumApiClient.buildUrl` without the `xApiKey` injection: placeholder
substitution, then query-string construction from the remaining
parameters. -/
def buildUrlCore (path : String) (ps : List (String × JSParam)) : String :=
  let st := substFold path ps
  let qp := queryPairsOf path ps
  if qp.isEmpty then st.1
  else st.1 ++ (if strContainsChar st.1 '?' then "&" else "?") ++ String.intercalate "&" qp

/-- The `xApiKey` injection of `buildUrl` (lines 199-201): when the path
template contains `{xApiKey}` and `parameters.xApiKey` is falsy, the
configured API key is written into the parameter bag. -/
def injectApiKeyParams (apiKey path : String) (ps : List (String × JSParam)) :
    List (String × JSParam) :=
  if strContains path (tokenOf "xApiKey") ∧ jsTruthyParam (lookupParamV ps "xApiKey") = false then
    upsertParam ps "xApiKey" (.vStr apiKey)
  else ps

/-- `TatumApiClient.buildUrl` (lines 194-222). -/
def buildUrl (apiKey path : String) (ps : List (String × JSParam)) : String :=
  buildUrlCore path (injectApiKeyParams apiKey path ps)

/-! ## Helper lemmas -/

theorem lookupStr_upsertStr (k v : String) :
    ∀ (m : List (String × String)) (c u : String),
      lookupStr (upsertStr m k v) c = some u → (c = k ∧ u = v) ∨ lookupStr m c = some u := by
  intro m
  induction m with
  | nil =>
    intro c u h
    simp only [upsertStr, lookupStr] at h
    by_cases hkc : k == c
    · rw [if_pos hkc] at h
      exact Or.inl ⟨(beq_iff_eq.mp hkc).symm, (Option.some.injEq _ _ ▸ h).symm⟩
    · rw [if_neg hkc] at h
      exact absurd h (by simp)
  | cons kv rest ih =>
    intro c u h
    simp only [upsertStr] at h
    by_cases hk : kv.1 == k
    · rw [if_pos hk] at h
      simp only [lookupStr] at h
      by_cases hkc : k == c
      · rw [if_pos hkc] at h
        exact Or.inl ⟨(beq_iff_eq.mp hkc).symm, (Option.some.inj h).symm⟩
      · rw [if_neg hkc] at h
        refine Or.inr ?_
        simp only [lookupStr]
        have : (kv.1 == c) = false := by
          rw [beq_iff_eq] at hk
          subst hk
          simpa using hkc
        rw [this]
        simpa using h
    · rw [if_neg hk] at h
      simp only [lookupStr] at h ⊢
      by_cases hc : kv.1 == c
      · rw [if_pos hc] at h
        rw [if_pos hc]
        exact Or.inr h
      · rw [if_neg hc] at h
        rw [if_neg hc]
        exact ih c u h

theorem byoStep_keeps_nonempty (m : List (String × String)) (pair : String)
    (hm : ∀ c u, lookupStr m c = some u → u ≠ "") :
    ∀ c u, lookupStr (byoStep m pair) c = some u → u ≠ "" := by
  intro c u h
  rcases hsp : (jsSplitChar pair ',').map jsTrim with _ | ⟨c1, _ | ⟨u1, rest⟩⟩ <;>
    simp only [byoStep, hsp] at h
  · exact hm c u h
  · exact hm c u h
  · by_cases hcu : c1 ≠ "" ∧ u1 ≠ ""
    · rw [if_pos hcu] at h
      rcases lookupStr_upsertStr c1 u1 m c u h with ⟨_, rfl⟩ | hrest
      · exact hcu.2
      · exact hm c u hrest
    · rw [if_neg hcu] at h
      exact hm c u h

/-- Every URL stored by `loadByoRpcConfig` is non-empty: the source only
stores a pair when both components are truthy. -/
theorem loadByoRpcConfig_values_nonempty (env : String) :
    ∀ c u, lookupStr (loadByoRpcConfig env) c = some u → u ≠ "" := by
  unfold loadByoRpcConfig
  generalize (((jsSplitChar env ';').map jsTrim).filter (· ≠ "")) = pairs
  have base : ∀ c u, lookupStr ([] : List (String × String)) c = some u → u ≠ "" := by
    intro c u h
    simp [lookupStr] at h
  revert base
  generalize ([] : List (String × String)) = m
  induction pairs generalizing m with
  | nil => intro base; simpa using base
  | cons p rest ih =>
    intro base
    simp only [List.foldl_cons]
    exact ih (byoStep m p) (byoStep_keeps_nonempty m p base)

/-! ## Claim C1 — override precedence in gateway URL resolution -/

/-- C1: for every chain identifier with an entry in the custom RPC
override table (as parsed by `loadByoRpcConfig`), `TatumConfig.getGatewayUrl`
returns the override URL for any vendor catalog whatsoever — in particular
when the catalog also lists that identifier under its canonical chain name
or an alias; and when no override entry exists for the identifier, the
resolution is exactly the vendor catalog search. -/
theorem c1_override_precedence :
    (∀ (env : String) (catalog : List Gateway) (chain url : String),
       lookupStr (loadByoRpcConfig env) chain = some url →
       tatumGetGatewayUrl ⟨loadByoRpcConfig env, catalog⟩ chain = some url)
    ∧ (∀ (cfg : TatumConfigModel) (chain : String),
       lookupStr cfg.byoRpcUrls chain = none →
       tatumGetGatewayUrl cfg chain = gatewayGetGatewayUrl cfg.catalog chain) := by
  constructor
  · intro env catalog chain url h
    have hne : url ≠ "" := loadByoRpcConfig_values_nonempty env chain url h
    simp only [tatumGetGatewayUrl, h]
    rw [if_neg (by simpa using hne)]
  · intro cfg chain h
    simp only [tatumGetGatewayUrl, h]

/-- Witness for C1: the override `ethereum-mainnet -> https://my-node.example`
wins although the vendor catalog also lists `ethereum-mainnet`. -/
theorem c1_override_precedence_witness :
    lookupStr (loadByoRpcConfig "ethereum-mainnet,https://my-node.example") "ethereum-mainnet"
        = some "https://my-node.example" ∧
    tatumGetGatewayUrl
        ⟨loadByoRpcConfig "ethereum-mainnet,https://my-node.example",
         [⟨"Ethereum", "docs",
           [⟨"ethereum-mainnet", "ethereum-mainnet",
             "https://ethereum-mainnet.gateway.tatum.io"⟩]⟩]⟩
        "ethereum-mainnet" = some "https://my-node.example" :=
  ⟨by decide, c1_override_precedence.1 _ _ _ _ (by decide)⟩

/-! ## Claim C2 — API-key header for custom-override chains -/

/-- C2 (the code evaluated at the failing input): with the override
`ethereum-mainnet -> https://my-node.example` configured, the request that
`executeRpcCall` hands to `client.post` omits `X-API-Key` from its
per-request headers (the source's intent and the spec's credential
withholding law), but the axios instance was created with a default
`X-API-Key` header in the `TatumApiClient` constructor, and axios merges
the per-request header config over the instance defaults, so the outbound
request still carries `X-API-Key: test-key` to the custom endpoint. -/
theorem c2_custom_key_leak :
    executeRpcCallStep
        ⟨loadByoRpcConfig "ethereum-mainnet,https://my-node.example", []⟩
        "test-key" "ethereum-mainnet" "eth_blockNumber" (.jArr [])
      = .send ⟨"https://my-node.example", "POST",
               [("Content-Type", "application/json")],
               .jsonRpc "2.0" 1 "eth_blockNumber" (.jArr [])⟩
    ∧ headerLookup [("Content-Type", "application/json")] "X-API-Key" = none
    ∧ headerLookup
        (axiosMergeHeaders (instanceDefaultHeaders "test-key")
          [("Content-Type", "application/json")]) "X-API-Key" = some "test-key" :=
  ⟨rfl, rfl, rfl⟩

/-! ## Claim C3 — unresolvable chain identifiers -/

/-- C3 (amended): for a chain identifier absent from both the custom
override table and the vendor catalog (and non-empty inputs), neither
execution path dispatches a request and both return the envelope error
`Gateway URL not found for chain: <chain>` — but
`GatewayService.executeChainRequest` returns it with status 404 /
`Not Found`, while `TatumApiClient.executeRpcCall` returns it with status
400 / `Bad Request`. -/
theorem c3_unknown_chain_envelopes :
    ∀ (gws : List Gateway) (byo : List (String × String)) (chain method : String)
      (ps : List JValue) (pj : JValue) (apiKey : String),
      gatewayGetGatewayUrl gws chain = none →
      lookupStr byo chain = none →
      chain ≠ "" → method ≠ "" →
      executeChainRequestDispatch gws chain method ps
          = .noDispatch ⟨none, some (.jStr ("Gateway URL not found for chain: " ++ chain)),
                         404, "Not Found"⟩
      ∧ executeRpcCallStep ⟨byo, gws⟩ apiKey chain method pj
          = .immediate ⟨none, some (.jStr ("Gateway URL not found for chain: " ++ chain)),
                        400, "Bad Request"⟩ := by
  intro gws byo chain method ps pj apiKey h1 h2 hc hm
  constructor
  · simp only [executeChainRequestDispatch, h1]
  · have hcb : (chain == "") = false := by simpa using hc
    have hmb : (method == "") = false := by simpa using hm
    simp only [executeRpcCallStep, hcb, hmb, Bool.or_self, Bool.false_eq_true, if_false,
      tatumGetGatewayUrl, h2, h1]

/-- Counterexample for C3 as stated: on the `TatumApiClient.executeRpcCall`
path (one of the two code sites the claim describes), the unknown-chain
envelope carries status 400, not the claimed 404. -/
theorem c3_counterexample :
    executeRpcCallStep ⟨[], []⟩ "test-key" "unknown-chain-xyz" "foo" (.jArr [])
        = .immediate ⟨none, some (.jStr "Gateway URL not found for chain: unknown-chain-xyz"),
                      400, "Bad Request"⟩
    ∧ (400 : Nat) ≠ 404 :=
  ⟨rfl, by decide⟩

/-- Witness for C3 (amended) at `unknown-chain-xyz` with empty tables. -/
theorem c3_unknown_chain_envelopes_witness :
    gatewayGetGatewayUrl [] "unknown-chain-xyz" = none ∧
    lookupStr [] "unknown-chain-xyz" = none ∧
    ("unknown-chain-xyz" : String) ≠ "" ∧
    ("foo" : String) ≠ "" ∧
    (executeChainRequestDispatch [] "unknown-chain-xyz" "foo" []
        = .noDispatch ⟨none, some (.jStr "Gateway URL not found for chain: unknown-chain-xyz"),
                       404, "Not Found"⟩
     ∧ executeRpcCallStep ⟨[], []⟩ "k" "unknown-chain-xyz" "foo" (.jArr [])
        = .immediate ⟨none, some (.jStr "Gateway URL not found for chain: unknown-chain-xyz"),
                      400, "Bad Request"⟩) :=
  ⟨rfl, rfl, by decide, by decide,
   c3_unknown_chain_envelopes [] [] "unknown-chain-xyz" "foo" [] (.jArr []) "k"
     rfl rfl (by decide) (by decide)⟩

/-! ## Claim C5 — failure capture and the network-failure envelope -/

/-- C5 (amended): both transports are total functions of the network
outcome — every failure mode becomes a returned envelope, nothing is
thrown.  On a network-level failure the REST gateway path returns status
500 / `Network Error` with `data: null` and the underlying message
prefixed by `"Network error: "` as `error`; the RPC-client path (no
`error.response` at all) returns status 0 / `Error` with the underlying
message itself as `error` and no `data` field. -/
theorem c5_network_failure_envelopes :
    (∀ (parse : String → Option JValue) (msg : String),
       executeRestRequestWithConfigO parse (.networkError msg)
         = ⟨some .jNull, some (.jStr ("Network error: " ++ msg)), 500, "Network Error"⟩)
    ∧ (∀ msg : String,
       executeRpcCallRespond (.errNoResponse msg) = ⟨none, some (.jStr msg), 0, "Error"⟩) :=
  ⟨fun _ _ => rfl, fun _ => rfl⟩

/-- Counterexample for C5 as stated: the REST gateway path does not return
the underlying failure message itself — it returns the message prefixed
with `"Network error: "`. -/
theorem c5_counterexample :
    (executeRestRequestWithConfigO (fun _ => none) (.networkError "boom")).error
        = some (.jStr "Network error: boom")
    ∧ ("Network error: boom" : String) ≠ "boom" :=
  ⟨rfl, by decide⟩

/-! ## Claim C6 — non-2xx REST error extraction -/

/-- C6 (amended): on a non-2xx REST response, the envelope's error is the
parsed body's `message` field when it is present and truthy, else the
body's `error` field when present and truthy, else the synthesized
`HTTP <status>: <statusText>` string; the parsed body is always still
attached as `data` and the remote status is preserved. -/
theorem c6_rest_error_extraction :
    ∀ (status : Nat) (statusText : String) (body : JValue),
      ¬(200 ≤ status ∧ status ≤ 299) →
      (classifyRestResponse status statusText body).data = some body
      ∧ (classifyRestResponse status statusText body).status = status
      ∧ (∀ m, truthyField body "message" = some m →
           (classifyRestResponse status statusText body).error = some m)
      ∧ (truthyField body "message" = none →
         ∀ e, truthyField body "error" = some e →
           (classifyRestResponse status statusText body).error = some e)
      ∧ (truthyField body "message" = none → truthyField body "error" = none →
           (classifyRestResponse status statusText body).error
             = some (.jStr ("HTTP " ++ toString status ++ ": " ++ statusText))) := by
  intro status statusText body hok
  refine ⟨?_, ?_, ?_, ?_, ?_⟩
  · simp only [classifyRestResponse, if_neg hok]
  · simp only [classifyRestResponse, if_neg hok]
  · intro m hm
    simp only [classifyRestResponse, if_neg hok, restErrorMessage, hm]
  · intro hm e he
    simp only [classifyRestResponse, if_neg hok, restErrorMessage, hm, he]
  · intro hm he
    simp only [classifyRestResponse, if_neg hok, restErrorMessage, hm, he]

/-- Counterexample for C6 as stated: a 429 body whose `message` field is
present but empty — the claim predicts the empty message as the error,
the code skips the falsy field and takes the `error` field instead. -/
theorem c6_counterexample :
    (classifyRestResponse 429 "Too Many Requests"
        (.jObj [("message", .jStr ""), ("error", .jStr "Rate limit exceeded")])).error
      = some (.jStr "Rate limit exceeded")
    ∧ JValue.jStr "Rate limit exceeded" ≠ .jStr "" :=
  ⟨rfl, by simp⟩

/-- Witness for C6: the 429 / `Rate limit exceeded` scenario of the spec. -/
theorem c6_rest_error_extraction_witness :
    ¬(200 ≤ 429 ∧ 429 ≤ 299) ∧
    ((classifyRestResponse 429 "Too Many Requests"
        (.jObj [("error", .jStr "Rate limit exceeded")])).data
       = some (.jObj [("error", .jStr "Rate limit exceeded")])
     ∧ (classifyRestResponse 429 "Too Many Requests"
        (.jObj [("error", .jStr "Rate limit exceeded")])).status = 429
     ∧ (∀ m, truthyField (.jObj [("error", .jStr "Rate limit exceeded")]) "message" = some m →
         (classifyRestResponse 429 "Too Many Requests"
            (.jObj [("error", .jStr "Rate limit exceeded")])).error = some m)
     ∧ (truthyField (.jObj [("error", .jStr "Rate limit exceeded")]) "message" = none →
        ∀ e, truthyField (.jObj [("error", .jStr "Rate limit exceeded")]) "error" = some e →
         (classifyRestResponse 429 "Too Many Requests"
            (.jObj [("error", .jStr "Rate limit exceeded")])).error = some e)
     ∧ (truthyField (.jObj [("error", .jStr "Rate limit exceeded")]) "message" = none →
        truthyField (.jObj [("error", .jStr "Rate limit exceeded")]) "error" = none →
         (classifyRestResponse 429 "Too Many Requests"
            (.jObj [("error", .jStr "Rate limit exceeded")])).error
           = some (.jStr ("HTTP " ++ toString 429 ++ ": " ++ "Too Many Requests")))) :=
  ⟨by decide, c6_rest_error_extraction 429 "Too Many Requests"
     (.jObj [("error", .jStr "Rate limit exceeded")]) (by decide)⟩

/-! ## Claim C8 — JSON-RPC request shape -/

/-- C8: for every chain registered as JSON-RPC, every method string and
every parameter list, `executeChainRequest` dispatches to the JSON-RPC
path with the resolved gateway URL, and the outbound request built by
`executeJsonRpcRequest` is a POST to that URL whose body is exactly
`{jsonrpc: "2.0", id: 1, method, params}` — with `id` the constant 1 —
and whose `Content-Type` header is `application/json`, regardless of the
shape of the params. -/
theorem c8_jsonrpc_request_shape :
    ∀ (gws : List Gateway) (chain u method apiKey : String) (ps : List JValue),
      getChainProtocol chain = some .jsonrpc →
      gatewayGetGatewayUrl gws chain = some u →
      u ≠ "" →
      executeChainRequestDispatch gws chain method ps = .jsonrpcDispatch u method ps
      ∧ jsonRpcWire apiKey u method (.jArr ps)
          = ⟨u, "POST",
             [("Content-Type", "application/json"), ("X-API-Key", apiKey)],
             .jsonRpc "2.0" 1 method (.jArr ps)⟩
      ∧ headerLookup (jsonRpcWire apiKey u method (.jArr ps)).headers "Content-Type"
          = some "application/json" := by
  intro gws chain u method apiKey ps hp hres hu
  refine ⟨?_, rfl, rfl⟩
  simp only [executeChainRequestDispatch, hres, hp]
  rw [if_neg (by simpa using hu)]

/-- Witness for C8: `ethereum-mainnet` with a one-entry catalog and the
`eth_getBalance` scenario parameters. -/
theorem c8_jsonrpc_request_shape_witness :
    getChainProtocol "ethereum-mainnet" = some .jsonrpc ∧
    gatewayGetGatewayUrl
        [⟨"Ethereum", "docs",
          [⟨"ethereum-mainnet", "ethereum-mainnet", "https://eth.gateway"⟩]⟩]
        "ethereum-mainnet" = some "https://eth.gateway" ∧
    ("https://eth.gateway" : String) ≠ "" ∧
    (executeChainRequestDispatch
        [⟨"Ethereum", "docs",
          [⟨"ethereum-mainnet", "ethereum-mainnet", "https://eth.gateway"⟩]⟩]
        "ethereum-mainnet" "eth_getBalance" [.jStr "0xabc", .jStr "latest"]
        = .jsonrpcDispatch "https://eth.gateway" "eth_getBalance"
            [.jStr "0xabc", .jStr "latest"]
     ∧ jsonRpcWire "test-key" "https://eth.gateway" "eth_getBalance"
          (.jArr [.jStr "0xabc", .jStr "latest"])
        = ⟨"https://eth.gateway", "POST",
           [("Content-Type", "application/json"), ("X-API-Key", "test-key")],
           .jsonRpc "2.0" 1 "eth_getBalance" (.jArr [.jStr "0xabc", .jStr "latest"])⟩
     ∧ headerLookup (jsonRpcWire "test-key" "https://eth.gateway" "eth_getBalance"
          (.jArr [.jStr "0xabc", .jStr "latest"])).headers "Content-Type"
        = some "application/json") :=
  ⟨by decide, rfl, by decide,
   c8_jsonrpc_request_shape _ "ethereum-mainnet" _ _ "test-key" _
     (by decide) rfl (by decide)⟩

/-! ## String splitting lemmas (for the verb/path split) -/

theorem strExt {a b : String} (h : a.data = b.data) : a = b := by
  cases a
  cases b
  exact congrArg String.mk h

theorem strDataAppend (a b : String) : (a ++ b).data = a.data ++ b.data := rfl

theorem strAppendAssoc (a b c : String) : a ++ b ++ c = a ++ (b ++ c) :=
  strExt (by simp [strDataAppend])

theorem strAppendEmpty (s : String) : s ++ "" = s :=
  strExt (by simp [strDataAppend])

theorem splitCharAux_no_sep (sep : Char) :
    ∀ (p acc : List Char), (∀ c ∈ p, (c == sep) = false) →
      splitCharAux sep p acc = [acc.reverse ++ p] := by
  intro p
  induction p with
  | nil => intro acc _; simp [splitCharAux]
  | cons c rest ih =>
    intro acc hno
    have hc : (c == sep) = false := hno c (by simp)
    simp only [splitCharAux, hc, Bool.false_eq_true, if_false]
    rw [ih (c :: acc) (fun x hx => hno x (by simp [hx]))]
    simp

theorem splitCharAux_with_sep (sep : Char) :
    ∀ (v p acc : List Char), (∀ c ∈ v, (c == sep) = false) →
      splitCharAux sep (v ++ sep :: p) acc
        = (acc.reverse ++ v) :: splitCharAux sep p [] := by
  intro v
  induction v with
  | nil =>
    intro p acc _
    simp [splitCharAux]
  | cons c rest ih =>
    intro p acc hno
    have hc : (c == sep) = false := hno c (by simp)
    rw [List.cons_append]
    simp only [splitCharAux, hc, Bool.false_eq_true, if_false]
    rw [ih p (c :: acc) (fun x hx => hno x (by simp [hx]))]
    simp

theorem strContainsChar_eq_false_iff (s : String) (c : Char) :
    strContainsChar s c = false ↔ ∀ x ∈ s.data, (x == c) = false := by
  simp [strContainsChar, List.any_eq_false]

theorem jsSplitChar_verb_path (verb path : String)
    (hv : strContainsChar verb ' ' = false) (hp : strContainsChar path ' ' = false) :
    jsSplitChar (verb ++ " " ++ path) ' ' = [verb, path] := by
  have hdata : (verb ++ " " ++ path).data = verb.data ++ ' ' :: path.data := by
    simp [strDataAppend]
  have hv' := (strContainsChar_eq_false_iff verb ' ').mp hv
  have hp' := (strContainsChar_eq_false_iff path ' ').mp hp
  simp only [jsSplitChar, hdata]
  rw [splitCharAux_with_sep ' ' verb.data (path.data) [] hv',
    splitCharAux_no_sep ' ' path.data [] hp']
  simp

theorem strContainsChar_append_sep (verb path : String) :
    strContainsChar (verb ++ " " ++ path) ' ' = true := by
  simp [strContainsChar, strDataAppend]

/-! ## Claim C4 — space heuristic for chains unknown to the registry -/

/-- C4: for a chain with no entry in the chain-protocol registry, the
request construction of `GatewayService.executeRequest` (the path wired to
`gateway_execute_rpc`) builds a JSON-RPC request exactly when the method
contains no space, and builds a REST request — splitting the method as
`<HTTP_VERB> <path>` — whenever it does, regardless of any registry
verdict (the registry is not consulted on this path at all). -/
theorem c4_space_heuristic :
    ∀ (chain apiKey u method : String) (body : JValue),
      getChainProtocol chain = none →
      (strContainsChar method ' ' = false →
         executeRequestWire apiKey u method body
           = ⟨u, "POST", [("Content-Type", "application/json"), ("X-API-Key", apiKey)],
              .jsonRpc "2.0" 1 method body⟩)
      ∧ (∀ verb path, method = verb ++ " " ++ path →
           strContainsChar verb ' ' = false → strContainsChar path ' ' = false →
           (executeRequestWire apiKey u method body).httpMethod = toUpperStr verb
           ∧ (∃ q, (executeRequestWire apiKey u method body).url = u ++ (path ++ q))
           ∧ (executeRequestWire apiKey u method body).body.isJsonRpc = false) := by
  intro chain apiKey u method body _
  constructor
  · intro hns
    simp only [executeRequestWire, hns, Bool.false_eq_true, if_false]
    rfl
  · intro verb path hm hv hp
    subst hm
    have hsp := strContainsChar_append_sep verb path
    have hvp : splitVerbPath (verb ++ " " ++ path) = (verb, path) := by
      simp [splitVerbPath, hsp, jsSplitChar_verb_path verb path hv hp]
    have hw : executeRequestWire apiKey u (verb ++ " " ++ path) body
        = restWire apiKey u (verb ++ " " ++ path) (some body) := by
      simp [executeRequestWire, hsp]
    refine ⟨?_, ?_, ?_⟩
    · rw [hw]
      simp [restWire, hvp]
    · rw [hw]
      simp only [restWire, hvp]
      by_cases hqs :
          (if (toUpperStr verb == "GET") = true then restQueryString (some body) else "") ≠ ""
      · rw [if_pos hqs]
        exact ⟨_, (strAppendAssoc (u ++ path) _ _).trans (strAppendAssoc u path _)⟩
      · rw [if_neg hqs]
        exact ⟨"", (congrArg (fun z => u ++ z) (strAppendEmpty path)).symm⟩
    · rw [hw]
      simp only [restWire, hvp]
      split
      · rfl
      · rfl

/-- Witness for C4 at `unknown-chain-xyz` with both a bare JSON-RPC style
method and a REST-shaped `POST /getnowblock` method. -/
theorem c4_space_heuristic_witness :
    getChainProtocol "unknown-chain-xyz" = none ∧
    ((strContainsChar "foo" ' ' = false →
        executeRequestWire "k" "https://u" "foo" (.jArr [])
          = ⟨"https://u", "POST",
             [("Content-Type", "application/json"), ("X-API-Key", "k")],
             .jsonRpc "2.0" 1 "foo" (.jArr [])⟩)
     ∧ (∀ verb path, ("foo" : String) = verb ++ " " ++ path →
          strContainsChar verb ' ' = false → strContainsChar path ' ' = false →
          (executeRequestWire "k" "https://u" "foo" (.jArr [])).httpMethod = toUpperStr verb
          ∧ (∃ q, (executeRequestWire "k" "https://u" "foo" (.jArr [])).url
               = "https://u" ++ (path ++ q))
          ∧ (executeRequestWire "k" "https://u" "foo" (.jArr [])).body.isJsonRpc = false)) ∧
    ((strContainsChar "POST /getnowblock" ' ' = false →
        executeRequestWire "k" "https://u" "POST /getnowblock" (.jArr [])
          = ⟨"https://u", "POST",
             [("Content-Type", "application/json"), ("X-API-Key", "k")],
             .jsonRpc "2.0" 1 "POST /getnowblock" (.jArr [])⟩)
     ∧ (∀ verb path, ("POST /getnowblock" : String) = verb ++ " " ++ path →
          strContainsChar verb ' ' = false → strContainsChar path ' ' = false →
          (executeRequestWire "k" "https://u" "POST /getnowblock" (.jArr [])).httpMethod
              = toUpperStr verb
          ∧ (∃ q, (executeRequestWire "k" "https://u" "POST /getnowblock" (.jArr [])).url
               = "https://u" ++ (path ++ q))
          ∧ (executeRequestWire "k" "https://u" "POST /getnowblock" (.jArr [])).body.isJsonRpc
              = false)) :=
  ⟨by decide,
   c4_space_heuristic "unknown-chain-xyz" "k" "https://u" "foo" (.jArr []) (by decide),
   c4_space_heuristic "unknown-chain-xyz" "k" "https://u" "POST /getnowblock" (.jArr [])
     (by decide)⟩

/-! ## REST method formatting lemmas (`executeChainRequest`, REST branch) -/

theorem strContainsChar_append (a b : String) (c : Char) :
    strContainsChar (a ++ b) c = (strContainsChar a c || strContainsChar b c) := by
  simp [strContainsChar, strDataAppend]

theorem strContainsChar_stripSlash (m : String) (c : Char)
    (h : strContainsChar m c = false) : strContainsChar (stripSlash m) c = false := by
  unfold strContainsChar at *
  unfold stripSlash
  cases hm : m.data with
  | nil => simpa [hm] using h
  | cons c0 rest =>
    rw [hm] at h
    simp only [List.any_cons, Bool.or_eq_false_iff] at h
    by_cases h0 : c0 = '/'
    · subst h0
      simpa using h.2
    · have : (match m.data with
          | '/' :: rest => (⟨rest⟩ : String)
          | _ => m) = m := by
        rw [hm]
        cases hc0 : c0 <;> simp_all
      rw [hm] at this
      rw [this, hm]
      simp [h.1, h.2]

theorem splitVerbPath_getForm (x : String) (hx : strContainsChar x ' ' = false) :
    splitVerbPath ("GET " ++ x) = ("GET", x) := by
  have hc : strContainsChar ("GET " ++ x) ' ' = true := by
    rw [strContainsChar_append]
    simp [(by decide : strContainsChar "GET " ' ' = true)]
  have h1 : ("GET" ++ " ") ++ x = "GET " ++ x :=
    congrArg (· ++ x) (by decide)
  have hj : jsSplitChar ("GET " ++ x) ' ' = ["GET", x] := by
    rw [← h1]
    exact jsSplitChar_verb_path "GET" x (by decide) hx
  simp [splitVerbPath, hc, hj]

theorem executeChainRequestDispatch_rest (gws : List Gateway) (chain m : String)
    (ps : List JValue) (u : String)
    (hres : gatewayGetGatewayUrl gws chain = some u) (hu : u ≠ "")
    (hproto : getChainProtocol chain = some .rest) :
    executeChainRequestDispatch gws chain m ps
      = .restDispatch u (restMethodFor chain m) ps (getChainApiConfig chain) := by
  simp only [executeChainRequestDispatch, hres, hproto]
  rw [if_neg (by simpa using hu)]

theorem restMethodFor_plain (chain m : String)
    (hnk : strStartsWith chain "kadena-" = false)
    (hnc : strStartsWith chain "cardano-" = false)
    (hnf : strStartsWith chain "flow-" = false)
    (hcfg : getChainApiConfig chain = ⟨none, [], some .lenient, some .json⟩)
    (hs : strContainsChar m ' ' = false) (hg : strStartsWith m "GET" = false)
    (hp : strStartsWith m "POST" = false) :
    restMethodFor chain m = "GET /" ++ stripSlash m := by
  simp only [restMethodFor, hcfg, hnk, hnc, hnf, Bool.false_eq_true, if_false]
  rw [if_pos ⟨hs, hg, hp⟩]

theorem restMethodFor_cardanoFamily (chain m : String)
    (hnk : strStartsWith chain "kadena-" = false)
    (hch : strStartsWith chain "cardano-" = true)
    (hcfg : (getChainApiConfig chain).basePath = some "/api/v0")
    (hs : strContainsChar m ' ' = false) (hg : strStartsWith m "GET" = false)
    (hp : strStartsWith m "POST" = false)
    (hpre : strStartsWith m "/api/v0" = false) :
    restMethodFor chain m = "GET " ++ "/api/v0" ++ "/" ++ stripSlash m := by
  by_cases hmk : strContains m "api/v0" = false
  · simp only [restMethodFor, hnk, hch, hmk, Bool.false_eq_true, if_false, if_true]
    exact congrArg (· ++ stripSlash m) (by decide)
  · have hmk' : strContains m "api/v0" = true := by simpa using hmk
    simp only [restMethodFor, hnk, hch, hmk', Bool.false_eq_true, Bool.true_eq_false,
      if_false, if_true, hcfg]
    rw [if_pos ⟨hs, hg, hp⟩, if_pos ⟨by decide, hpre⟩]

theorem restMethodFor_flowFamily (chain m : String)
    (hnk : strStartsWith chain "kadena-" = false)
    (hnc : strStartsWith chain "cardano-" = false)
    (hch : strStartsWith chain "flow-" = true)
    (hcfg : (getChainApiConfig chain).basePath = some "/v1")
    (hs : strContainsChar m ' ' = false) (hg : strStartsWith m "GET" = false)
    (hp : strStartsWith m "POST" = false)
    (hpre : strStartsWith m "/v1" = false) :
    restMethodFor chain m = "GET " ++ "/v1" ++ "/" ++ stripSlash m := by
  by_cases hmk : strContains m "v1" = false
  · simp only [restMethodFor, hnk, hnc, hch, hmk, Bool.false_eq_true, if_false, if_true]
    exact congrArg (· ++ stripSlash m) (by decide)
  · have hmk' : strContains m "v1" = true := by simpa using hmk
    simp only [restMethodFor, hnk, hnc, hch, hmk', Bool.false_eq_true, Bool.true_eq_false,
      if_false, if_true, hcfg]
    rw [if_pos ⟨hs, hg, hp⟩, if_pos ⟨by decide, hpre⟩]

theorem restMethodFor_kadenaFamily (chain m net : String)
    (hch : strStartsWith chain "kadena-" = true)
    (hnet : (if strContains chain "testnet" = true then "testnet04" else "mainnet01") = net)
    (hcfg : (getChainApiConfig chain).basePath = some ("/chainweb/0.0/" ++ net))
    (hs : strContainsChar m ' ' = false) (hg : strStartsWith m "GET" = false)
    (hp : strStartsWith m "POST" = false)
    (hpre : strStartsWith m ("/chainweb/0.0/" ++ net) = false) :
    restMethodFor chain m = "GET " ++ ("/chainweb/0.0/" ++ net) ++ "/" ++ stripSlash m := by
  have hpfx : ("GET /chainweb/0.0/" ++ net) = "GET " ++ ("/chainweb/0.0/" ++ net) := by
    rw [← strAppendAssoc]
    exact congrArg (· ++ net) (by decide)
  by_cases hmk : strContains m "chainweb" = false
  · simp only [restMethodFor, hch, hmk, Bool.false_eq_true, if_false, if_true, hnet]
    exact congrArg (fun z => (z ++ "/") ++ stripSlash m) hpfx
  · have hmk' : strContains m "chainweb" = true := by simpa using hmk
    simp only [restMethodFor, hch, hmk', Bool.false_eq_true, Bool.true_eq_false,
      if_false, if_true, hcfg]
    rw [if_pos ⟨hs, hg, hp⟩]
    rw [if_pos ⟨by intro he; have hd := congrArg String.data he; simp [strDataAppend] at hd,
      hpre⟩]

/-! ## Claim C7 — REST chains and bare method names -/

/-- C7 (amended): for every chain registered as REST and every bare method
name (no space, not starting with `GET`/`POST`) that does not already
start with the chain's configured base path prefix, the formatted request
is `GET <basePathPrefix>/<method-with-leading-slash-stripped>`, the
dispatch carries it to the resolved gateway URL, and the verb/path split
of the formatted method yields the verb `GET` with that path.  (When the
method already starts with the configured prefix, the source does not
duplicate the prefix — see the counterexample.) -/
theorem c7_rest_bare_method :
    ∀ (chain m : String),
      chain ∈ getChainsByProtocol .rest →
      strContainsChar m ' ' = false →
      strStartsWith m "GET" = false →
      strStartsWith m "POST" = false →
      (∀ p, (getChainApiConfig chain).basePath = some p → strStartsWith m p = false) →
      restMethodFor chain m
        = "GET " ++ (getChainApiConfig chain).basePath.getD "" ++ "/" ++ stripSlash m
      ∧ (∀ (gws : List Gateway) (u : String) (ps : List JValue),
           gatewayGetGatewayUrl gws chain = some u → u ≠ "" →
           executeChainRequestDispatch gws chain m ps
             = .restDispatch u
                 ("GET " ++ (getChainApiConfig chain).basePath.getD "" ++ "/" ++ stripSlash m)
                 ps (getChainApiConfig chain))
      ∧ splitVerbPath
            ("GET " ++ (getChainApiConfig chain).basePath.getD "" ++ "/" ++ stripSlash m)
          = ("GET", (getChainApiConfig chain).basePath.getD "" ++ ("/" ++ stripSlash m)) := by
  intro chain m hc hs hg hp hpre
  have hproto : getChainProtocol chain = some .rest := by
    have hall : ∀ c ∈ getChainsByProtocol Protocol.rest, getChainProtocol c = some .rest := by
      decide
    exact hall chain hc
  have hA : restMethodFor chain m
      = "GET " ++ (getChainApiConfig chain).basePath.getD "" ++ "/" ++ stripSlash m := by
    have hmem : chain ∈ ["ton-mainnet", "ton-testnet", "stellar-mainnet", "stellar-testnet",
        "algorand-mainnet", "algorand-testnet", "cardano-mainnet", "cardano-testnet",
        "flow-mainnet", "flow-testnet", "kadena-mainnet", "kadena-testnet",
        "tezos-mainnet", "tezos-testnet", "vechain-mainnet", "vechain-testnet"] := by
      rwa [(by decide : getChainsByProtocol Protocol.rest
        = ["ton-mainnet", "ton-testnet", "stellar-mainnet", "stellar-testnet",
           "algorand-mainnet", "algorand-testnet", "cardano-mainnet", "cardano-testnet",
           "flow-mainnet", "flow-testnet", "kadena-mainnet", "kadena-testnet",
           "tezos-mainnet", "tezos-testnet", "vechain-mainnet", "vechain-testnet"])] at hc
    fin_cases hmem
    all_goals first
      | exact (restMethodFor_plain _ m (by decide) (by decide) (by decide) (by decide)
          hs hg hp).trans (congrArg (· ++ stripSlash m) (by decide))
      | exact (restMethodFor_cardanoFamily _ m (by decide) (by decide) (by decide)
          hs hg hp (hpre _ (by decide))).trans (congrArg (· ++ stripSlash m) (by decide))
      | exact (restMethodFor_flowFamily _ m (by decide) (by decide) (by decide) (by decide)
          hs hg hp (hpre _ (by decide))).trans (congrArg (· ++ stripSlash m) (by decide))
      | exact (restMethodFor_kadenaFamily _ m "mainnet01" (by decide) (by decide) (by decide)
          hs hg hp (hpre _ (by decide))).trans (congrArg (· ++ stripSlash m) (by decide))
      | exact (restMethodFor_kadenaFamily _ m "testnet04" (by decide) (by decide) (by decide)
          hs hg hp (hpre _ (by decide))).trans (congrArg (· ++ stripSlash m) (by decide))
  refine ⟨hA, ?_, ?_⟩
  · intro gws u ps hres hu
    rw [← hA]
    exact executeChainRequestDispatch_rest gws chain m ps u hres hu hproto
  · have hx : strContainsChar
        ((getChainApiConfig chain).basePath.getD "" ++ ("/" ++ stripSlash m)) ' ' = false := by
      rw [strContainsChar_append]
      have h1 : strContainsChar ((getChainApiConfig chain).basePath.getD "") ' ' = false := by
        have hall : ∀ c ∈ getChainsByProtocol Protocol.rest,
            strContainsChar ((getChainApiConfig c).basePath.getD "") ' ' = false := by decide
        exact hall chain hc
      have h2 : strContainsChar ("/" ++ stripSlash m) ' ' = false := by
        rw [strContainsChar_append]
        simp [(by decide : strContainsChar "/" ' ' = false),
          strContainsChar_stripSlash m ' ' hs]
      simp [h1, h2]
    have hM : "GET " ++ (getChainApiConfig chain).basePath.getD "" ++ "/" ++ stripSlash m
        = "GET " ++ ((getChainApiConfig chain).basePath.getD "" ++ ("/" ++ stripSlash m)) := by
      calc ("GET " ++ (getChainApiConfig chain).basePath.getD "" ++ "/") ++ stripSlash m
          = ("GET " ++ (getChainApiConfig chain).basePath.getD "")
              ++ ("/" ++ stripSlash m) := strAppendAssoc _ _ _
        _ = "GET " ++ ((getChainApiConfig chain).basePath.getD ""
              ++ ("/" ++ stripSlash m)) := strAppendAssoc _ _ _
    rw [hM]
    exact splitVerbPath_getForm _ hx

/-- Counterexample for C7 as stated: a bare cardano method that already
starts with the configured prefix is used as-is — the prefix is not
prepended again, so the path does not begin with the prefix followed by
the slash-stripped method. -/
theorem c7_counterexample :
    restMethodFor "cardano-mainnet" "/api/v0/blocks/latest" = "GET /api/v0/blocks/latest"
    ∧ restMethodFor "cardano-mainnet" "/api/v0/blocks/latest"
        ≠ "GET " ++ "/api/v0" ++ "/" ++ stripSlash "/api/v0/blocks/latest" := by
  constructor
  · decide
  · decide

/-- Witness for C7 at the spec scenario
`execute("cardano-mainnet", "blocks/latest")`. -/
theorem c7_rest_bare_method_witness :
    ("cardano-mainnet" ∈ getChainsByProtocol .rest) ∧
    (restMethodFor "cardano-mainnet" "blocks/latest"
        = "GET " ++ (getChainApiConfig "cardano-mainnet").basePath.getD ""
            ++ "/" ++ stripSlash "blocks/latest"
     ∧ (∀ (gws : List Gateway) (u : String) (ps : List JValue),
          gatewayGetGatewayUrl gws "cardano-mainnet" = some u → u ≠ "" →
          executeChainRequestDispatch gws "cardano-mainnet" "blocks/latest" ps
            = .restDispatch u
                ("GET " ++ (getChainApiConfig "cardano-mainnet").basePath.getD ""
                  ++ "/" ++ stripSlash "blocks/latest")
                ps (getChainApiConfig "cardano-mainnet"))
     ∧ splitVerbPath
          ("GET " ++ (getChainApiConfig "cardano-mainnet").basePath.getD ""
            ++ "/" ++ stripSlash "blocks/latest")
        = ("GET", (getChainApiConfig "cardano-mainnet").basePath.getD ""
            ++ ("/" ++ stripSlash "blocks/latest"))) :=
  ⟨by decide,
   c7_rest_bare_method "cardano-mainnet" "blocks/latest" (by decide) (by decide) (by decide)
     (by decide)
     (by
       intro p hp
       rw [(by decide : (getChainApiConfig "cardano-mainnet").basePath = some "/api/v0")] at hp
       cases Option.some.inj hp
       decide)⟩

/-! ## Substitution-fold lemmas (`buildUrl`) -/

theorem substFold_decomp :
    ∀ (ps : List (String × JSParam)) (u : String) (used : List String),
      ps.foldl substStep (u, used) = (substUrlA u ps, used ++ substNewA u ps) := by
  intro ps
  induction ps with
  | nil => intro u used; simp [substUrlA, substNewA]
  | cons kv rest ih =>
    intro u used
    simp only [List.foldl_cons, substUrlA, substNewA]
    by_cases hc : strContains u (tokenOf kv.1) = true
    · rw [show substStep (u, used) kv = ((substStep (u, []) kv).1, used ++ [kv.1]) from by
        simp [substStep, hc]]
      rw [ih]
      simp [hc]
    · have hc' : strContains u (tokenOf kv.1) = false := by simpa using hc
      rw [show substStep (u, used) kv = ((substStep (u, []) kv).1, used) from by
        simp [substStep, hc']]
      rw [ih]
      simp [hc']

theorem substNewA_subset :
    ∀ (ps : List (String × JSParam)) (u k : String),
      k ∈ substNewA u ps → k ∈ ps.map Prod.fst := by
  intro ps
  induction ps with
  | nil => intro u k h; simp [substNewA] at h
  | cons kv rest ih =>
    intro u k h
    simp only [substNewA, List.mem_append] at h
    simp only [List.map_cons, List.mem_cons]
    rcases h with h | h
    · left
      by_cases hc : strContains u (tokenOf kv.1) = true
      · rw [if_pos hc] at h
        simpa using h
      · rw [if_neg hc] at h
        simp at h
    · exact Or.inr (ih _ k h)

theorem substNewA_mem_iff :
    ∀ (ps : List (String × JSParam)) (u k : String) (v : JSParam),
      (ps.map Prod.fst).Nodup → (k, v) ∈ ps →
      (k ∈ substNewA u ps ↔
        strContains (substUrlA u (ps.takeWhile (fun kv => kv.1 != k))) (tokenOf k) = true) := by
  intro ps
  induction ps with
  | nil => intro u k v _ h; simp at h
  | cons kv rest ih =>
    rcases kv with ⟨k1, v1⟩
    intro u k v hnd hmem
    by_cases hk : k1 = k
    · subst hk
      have htw : ((k1, v1) :: rest).takeWhile (fun kv => kv.1 != k1) = [] := by
        simp [List.takeWhile]
      rw [htw]
      simp only [substUrlA, substNewA, List.mem_append]
      have hnotin : k1 ∉ rest.map Prod.fst := by
        simp only [List.map_cons, List.nodup_cons] at hnd
        exact hnd.1
      by_cases hc : strContains u (tokenOf k1) = true
      · simp [hc]
      · have hc' : strContains u (tokenOf k1) = false := by simpa using hc
        simp only [hc', if_false, List.nil_append, Bool.false_eq_true, iff_false]
        intro hcon
        rcases hcon with hcon | hcon
        · simp at hcon
        · exact hnotin (substNewA_subset rest _ k1 hcon)
    · have hmem' : (k, v) ∈ rest := by
        rcases List.mem_cons.mp hmem with heq | h
        · exact absurd (congrArg Prod.fst heq).symm hk
        · exact h
      have hnd' : (rest.map Prod.fst).Nodup := by
        simp only [List.map_cons, List.nodup_cons] at hnd
        exact hnd.2
      have hbne : (k1 != k) = true := by simpa [bne_iff_ne] using hk
      have htw : ((k1, v1) :: rest).takeWhile (fun kv => kv.1 != k)
          = (k1, v1) :: rest.takeWhile (fun kv => kv.1 != k) := by
        simp [List.takeWhile, hbne]
      rw [htw]
      simp only [substNewA, substUrlA, List.mem_append]
      constructor
      · intro h
        rcases h with h | h
        · exfalso
          by_cases hc : strContains u (tokenOf k1) = true
          · rw [if_pos hc] at h
            have hkk : k = k1 := by simpa using h
            exact hk hkk.symm
          · rw [if_neg hc] at h
            simp at h
        · exact (ih _ k v hnd' hmem').mp h
      · intro h
        exact Or.inr ((ih _ k v hnd' hmem').mpr h)

theorem filterMap_ite_eq {α β : Type} (l : List α) (p : α → Bool) (f : α → β) :
    l.filterMap (fun a => if p a then some (f a) else none) = (l.filter p).map f := by
  induction l with
  | nil => rfl
  | cons a rest ih =>
    by_cases hp : p a
    · simp [List.filterMap_cons, List.filter_cons, hp, ih]
    · simp [List.filterMap_cons, List.filter_cons, hp, ih]

/-! ## Claim C9 — placeholder substitution and query-string construction -/

/-- C9: in `TatumApiClient.buildUrl`, the substitution loop (`substFold`,
whose step replaces every occurrence of the `{key}` token by the
URL-encoded parameter value and marks the key used) decomposes into the
substituted URL and the used-key list; the query list consists exactly of
the URL-encoded `key=value` pairs of the parameters that were not
substituted and are neither `undefined` nor `null` — so every emitted
query pair originates from a non-substituted parameter and no parameter
is emitted both into the path and into the query string; a key is marked
substituted precisely when its `{key}` token occurs in the URL at its
substitution turn; and the final URL is the substituted URL with the
query pairs appended after `?` (or `&` when the URL already contains
`?`). -/
theorem c9_build_url :
    ∀ (path : String) (ps : List (String × JSParam)),
      (ps.map Prod.fst).Nodup →
      substFold path ps = (substUrlA path ps, substNewA path ps)
      ∧ queryPairsOf path ps
          = (ps.filter (fun kv => !(substNewA path ps).contains kv.1
              && !isNullishParam kv.2)).map
              (fun kv => encodeURIComponent kv.1 ++ "=" ++ encodeURIComponent (paramStr kv.2))
      ∧ (∀ q ∈ queryPairsOf path ps,
          ∃ kv, kv ∈ ps ∧ (substNewA path ps).contains kv.1 = false
            ∧ isNullishParam kv.2 = false
            ∧ q = encodeURIComponent kv.1 ++ "=" ++ encodeURIComponent (paramStr kv.2))
      ∧ (∀ k v, (k, v) ∈ ps →
          (k ∈ substNewA path ps ↔
            strContains (substUrlA path (ps.takeWhile (fun kv => kv.1 != k)))
              (tokenOf k) = true))
      ∧ buildUrlCore path ps
          = (if (queryPairsOf path ps).isEmpty then substUrlA path ps
             else substUrlA path ps
               ++ (if strContainsChar (substUrlA path ps) '?' then "&" else "?")
               ++ String.intercalate "&" (queryPairsOf path ps)) := by
  intro path ps hnd
  have hdec : substFold path ps = (substUrlA path ps, substNewA path ps) := by
    have := substFold_decomp ps path []
    simpa [substFold] using this
  have hq : queryPairsOf path ps
      = (ps.filter (fun kv => !(substNewA path ps).contains kv.1
          && !isNullishParam kv.2)).map
          (fun kv => encodeURIComponent kv.1 ++ "=" ++ encodeURIComponent (paramStr kv.2)) := by
    unfold queryPairsOf
    rw [hdec]
    exact filterMap_ite_eq ps _ _
  refine ⟨hdec, hq, ?_, ?_, ?_⟩
  · intro q hqm
    rw [hq] at hqm
    rcases List.mem_map.mp hqm with ⟨kv, hkv, rfl⟩
    rcases List.mem_filter.mp hkv with ⟨hmem, hpred⟩
    rw [Bool.and_eq_true, Bool.not_eq_true', Bool.not_eq_true'] at hpred
    exact ⟨kv, hmem, hpred.1, hpred.2, rfl⟩
  · intro k v hkv
    exact substNewA_mem_iff ps path k v hnd hkv
  · unfold buildUrlCore
    rw [hdec]

/-- Witness for C9: a path template with one substituted key, one query
key and one null-skipped key. -/
theorem c9_build_url_witness :
    (([("chain", JSParam.vStr "eth"), ("page", JSParam.vStr "2"),
       ("skip", JSParam.vNull)].map Prod.fst).Nodup) ∧
    (substFold "/v3/nft/{chain}/x"
        [("chain", JSParam.vStr "eth"), ("page", JSParam.vStr "2"), ("skip", JSParam.vNull)]
      = (substUrlA "/v3/nft/{chain}/x"
          [("chain", JSParam.vStr "eth"), ("page", JSParam.vStr "2"), ("skip", JSParam.vNull)],
         substNewA "/v3/nft/{chain}/x"
          [("chain", JSParam.vStr "eth"), ("page", JSParam.vStr "2"), ("skip", JSParam.vNull)])
     ∧ queryPairsOf "/v3/nft/{chain}/x"
          [("chain", JSParam.vStr "eth"), ("page", JSParam.vStr "2"), ("skip", JSParam.vNull)]
        = (([("chain", JSParam.vStr "eth"), ("page", JSParam.vStr "2"),
             ("skip", JSParam.vNull)].filter
            (fun kv => !(substNewA "/v3/nft/{chain}/x"
                [("chain", JSParam.vStr "eth"), ("page", JSParam.vStr "2"),
                 ("skip", JSParam.vNull)]).contains kv.1
              && !isNullishParam kv.2)).map
            (fun kv => encodeURIComponent kv.1 ++ "=" ++ encodeURIComponent (paramStr kv.2)))
     ∧ (∀ q ∈ queryPairsOf "/v3/nft/{chain}/x"
            [("chain", JSParam.vStr "eth"), ("page", JSParam.vStr "2"),
             ("skip", JSParam.vNull)],
          ∃ kv, kv ∈ [("chain", JSParam.vStr "eth"), ("page", JSParam.vStr "2"),
              ("skip", JSParam.vNull)]
            ∧ (substNewA "/v3/nft/{chain}/x"
                [("chain", JSParam.vStr "eth"), ("page", JSParam.vStr "2"),
                 ("skip", JSParam.vNull)]).contains kv.1 = false
            ∧ isNullishParam kv.2 = false
            ∧ q = encodeURIComponent kv.1 ++ "=" ++ encodeURIComponent (paramStr kv.2))
     ∧ (∀ k v, (k, v) ∈ [("chain", JSParam.vStr "eth"), ("page", JSParam.vStr "2"),
            ("skip", JSParam.vNull)] →
          (k ∈ substNewA "/v3/nft/{chain}/x"
              [("chain", JSParam.vStr "eth"), ("page", JSParam.vStr "2"),
               ("skip", JSParam.vNull)] ↔
            strContains (substUrlA "/v3/nft/{chain}/x"
                ([("chain", JSParam.vStr "eth"), ("page", JSParam.vStr "2"),
                  ("skip", JSParam.vNull)].takeWhile (fun kv => kv.1 != k)))
              (tokenOf k) = true))
     ∧ buildUrlCore "/v3/nft/{chain}/x"
          [("chain", JSParam.vStr "eth"), ("page", JSParam.vStr "2"), ("skip", JSParam.vNull)]
        = (if (queryPairsOf "/v3/nft/{chain}/x"
              [("chain", JSParam.vStr "eth"), ("page", JSParam.vStr "2"),
               ("skip", JSParam.vNull)]).isEmpty
           then substUrlA "/v3/nft/{chain}/x"
              [("chain", JSParam.vStr "eth"), ("page", JSParam.vStr "2"),
               ("skip", JSParam.vNull)]
           else substUrlA "/v3/nft/{chain}/x"
              [("chain", JSParam.vStr "eth"), ("page", JSParam.vStr "2"),
               ("skip", JSParam.vNull)]
             ++ (if strContainsChar (substUrlA "/v3/nft/{chain}/x"
                  [("chain", JSParam.vStr "eth"), ("page", JSParam.vStr "2"),
                   ("skip", JSParam.vNull)]) '?' then "&" else "?")
             ++ String.intercalate "&" (queryPairsOf "/v3/nft/{chain}/x"
                  [("chain", JSParam.vStr "eth"), ("page", JSParam.vStr "2"),
                   ("skip", JSParam.vNull)]))) :=
  ⟨by decide,
   c9_build_url "/v3/nft/{chain}/x"
     [("chain", JSParam.vStr "eth"), ("page", JSParam.vStr "2"), ("skip", JSParam.vNull)]
     (by decide)⟩

/-! ## Lemmas for the `xApiKey` injection -/

theorem substUrlA_id :
    ∀ (ps : List (String × JSParam)) (u : String),
      (∀ kv ∈ ps, strContains u (tokenOf kv.1) = false) → substUrlA u ps = u := by
  intro ps
  induction ps with
  | nil => intro u _; rfl
  | cons kv rest ih =>
    intro u h
    have hc := h kv (by simp)
    simp only [substUrlA, substStep, hc, Bool.false_eq_true, if_false]
    exact ih u (fun x hx => h x (by simp [hx]))

theorem substNewA_append :
    ∀ (ps qs : List (String × JSParam)) (u : String),
      substNewA u (ps ++ qs) = substNewA u ps ++ substNewA (substUrlA u ps) qs := by
  intro ps
  induction ps with
  | nil => intro qs u; simp [substNewA, substUrlA]
  | cons kv rest ih =>
    intro qs u
    simp only [List.cons_append, substNewA, substUrlA]
    rw [show rest.append qs = rest ++ qs from rfl, ih, List.append_assoc]

theorem substNewA_nil :
    ∀ (ps : List (String × JSParam)) (u : String),
      (∀ kv ∈ ps, strContains u (tokenOf kv.1) = false) → substNewA u ps = [] := by
  intro ps
  induction ps with
  | nil => intro u _; rfl
  | cons kv rest ih =>
    intro u h
    have hc := h kv (by simp)
    simp only [substNewA, substStep, hc, Bool.false_eq_true, if_false, List.nil_append]
    exact ih u (fun x hx => h x (by simp [hx]))

theorem substUrlA_append :
    ∀ (ps qs : List (String × JSParam)) (u : String),
      substUrlA u (ps ++ qs) = substUrlA (substUrlA u ps) qs := by
  intro ps
  induction ps with
  | nil => intro qs u; simp [substUrlA]
  | cons kv rest ih =>
    intro qs u
    simp only [List.cons_append, substUrlA]
    rw [show rest.append qs = rest ++ qs from rfl, ih]

theorem upsertParam_absent :
    ∀ (ps : List (String × JSParam)) (k : String) (v : JSParam),
      ps.find? (·.1 == k) = none → upsertParam ps k v = ps ++ [(k, v)] := by
  intro ps
  induction ps with
  | nil => intro k v _; rfl
  | cons kv rest ih =>
    intro k v h
    rw [List.find?_cons] at h
    rcases hkc : (kv.1 == k) with _ | _
    · rw [hkc] at h
      simp only [upsertParam, hkc, Bool.false_eq_true, if_false, List.cons_append]
      rw [ih k v h]
    · rw [hkc] at h
      simp at h

theorem listIsPrefixOf_append_self (x : List Char) :
    ∀ y, listIsPrefixOf x (x ++ y) = true := by
  induction x with
  | nil => intro y; rfl
  | cons c rest ih => intro y; simp [listIsPrefixOf, ih]

theorem listContainsSub_of_isPrefixOf (pat l : List Char)
    (h : listIsPrefixOf pat l = true) : listContainsSub pat l = true := by
  cases l with
  | nil => simpa [listContainsSub] using h
  | cons c rest => simp [listContainsSub, h]

/-- When the pattern occurs in the text and the fuel covers the text, the
replacement text occurs in the output of `replaceAllFuel`. -/
theorem replaceAllFuel_contains_rep (pat rep : List Char) (hp : pat ≠ []) :
    ∀ (fuel : Nat) (l : List Char), l.length ≤ fuel →
      listContainsSub pat l = true →
      listContainsSub rep (replaceAllFuel pat rep fuel l) = true := by
  intro fuel
  induction fuel with
  | zero =>
    intro l hl h
    have hnil : l = [] := List.length_eq_zero.mp (Nat.le_zero.mp hl)
    subst hnil
    cases pat with
    | nil => exact absurd rfl hp
    | cons a as => simp [listContainsSub, listIsPrefixOf] at h
  | succ fuel ih =>
    intro l hl h
    cases l with
    | nil =>
      cases pat with
      | nil => exact absurd rfl hp
      | cons a as => simp [listContainsSub, listIsPrefixOf] at h
    | cons c rest =>
      simp only [replaceAllFuel]
      by_cases hpre : pat ≠ [] ∧ listIsPrefixOf pat (c :: rest) = true
      · rw [if_pos hpre]
        exact listContainsSub_of_isPrefixOf rep _ (listIsPrefixOf_append_self rep _)
      · rw [if_neg hpre]
        have hnp : listIsPrefixOf pat (c :: rest) = false := by
          by_cases hb : listIsPrefixOf pat (c :: rest) = true
          · exact absurd ⟨hp, hb⟩ hpre
          · simpa using hb
        have hrest : listContainsSub pat rest = true := by
          rw [listContainsSub, hnp] at h
          simpa using h
        have hlen : rest.length ≤ fuel := by
          simpa using hl
        have := ih rest hlen hrest
        simp [listContainsSub, this]

/-! ## Claim C10 — xApiKey injection in buildUrl -/

/-- C10 (amended): when the path template contains the `{xApiKey}` token
and the caller supplies no `xApiKey` parameter, the configured API key is
appended to the parameter bag (enumerated last, so it is substituted into
the URL, URL-encoded, at its turn: with no other token in the path, the
key is marked substituted and its URL-encoded value occurs in the
substituted URL); when the caller supplies a truthy `xApiKey` value, no
injection happens.  (A falsy supplied value — empty string or null — is
overwritten by the configured key: see the counterexample.) -/
theorem c10_api_key_injection :
    (∀ (apiKey path : String) (ps : List (String × JSParam)),
       strContains path (tokenOf "xApiKey") = true →
       ps.find? (·.1 == "xApiKey") = none →
       (∀ kv ∈ ps, strContains path (tokenOf kv.1) = false) →
       injectApiKeyParams apiKey path ps = ps ++ [("xApiKey", .vStr apiKey)]
       ∧ "xApiKey" ∈ substNewA path (ps ++ [("xApiKey", .vStr apiKey)])
       ∧ strContains (substUrlA path (ps ++ [("xApiKey", .vStr apiKey)]))
           (encodeURIComponent apiKey) = true)
    ∧ (∀ (apiKey path : String) (ps : List (String × JSParam)),
       jsTruthyParam (lookupParamV ps "xApiKey") = true →
       injectApiKeyParams apiKey path ps = ps) := by
  constructor
  · intro apiKey path ps htok hfind hother
    have hlook : lookupParamV ps "xApiKey" = .vUndefined := by
      simp [lookupParamV, hfind]
    have hinj : injectApiKeyParams apiKey path ps = ps ++ [("xApiKey", .vStr apiKey)] := by
      unfold injectApiKeyParams
      rw [if_pos ⟨htok, by rw [hlook]; rfl⟩]
      exact upsertParam_absent ps "xApiKey" (.vStr apiKey) hfind
    have hurl : substUrlA path (ps ++ [("xApiKey", JSParam.vStr apiKey)])
        = replaceAllS path (tokenOf "xApiKey") (encodeURIComponent apiKey) := by
      rw [substUrlA_append, substUrlA_id ps path hother]
      simp [substUrlA, substStep, htok, paramStr]
    refine ⟨hinj, ?_, ?_⟩
    · rw [substNewA_append, substUrlA_id ps path hother, substNewA_nil ps path hother]
      simp [substNewA, substStep, htok]
    · rw [hurl]
      have hpat : (tokenOf "xApiKey").data ≠ [] := by decide
      exact replaceAllFuel_contains_rep (tokenOf "xApiKey").data
        (encodeURIComponent apiKey).data hpat path.data.length path.data (Nat.le_refl _) htok
  · intro apiKey path ps htr
    unfold injectApiKeyParams
    rw [if_neg]
    intro hcon
    rw [htr] at hcon
    exact absurd hcon.2 (by simp)

/-- Counterexample for C10 as stated: the caller supplies `xApiKey` (as an
empty string), yet the configured key is still injected — the source
tests `!parameters.xApiKey` (truthiness), not key presence, so the falsy
supplied value is overwritten and the secret is substituted anyway. -/
theorem c10_counterexample :
    buildUrl "SECRET" "/t/{xApiKey}" [("xApiKey", JSParam.vStr "")] = "/t/SECRET"
    ∧ buildUrlCore "/t/{xApiKey}" [("xApiKey", JSParam.vStr "")] = "/t/"
    ∧ ("/t/SECRET" : String) ≠ "/t/" := by
  refine ⟨by decide, by decide, by decide⟩

/-- Witness for C10: a template containing `{xApiKey}`, one unrelated
parameter, and no caller-supplied `xApiKey`. -/
theorem c10_api_key_injection_witness :
    strContains "/v3/t/{xApiKey}" (tokenOf "xApiKey") = true ∧
    ([("page", JSParam.vStr "2")].find? (·.1 == "xApiKey") = none) ∧
    (∀ kv ∈ [("page", JSParam.vStr "2")],
       strContains "/v3/t/{xApiKey}" (tokenOf kv.1) = false) ∧
    (injectApiKeyParams "SECRET" "/v3/t/{xApiKey}" [("page", JSParam.vStr "2")]
        = [("page", JSParam.vStr "2")] ++ [("xApiKey", .vStr "SECRET")]
     ∧ "xApiKey" ∈ substNewA "/v3/t/{xApiKey}"
         ([("page", JSParam.vStr "2")] ++ [("xApiKey", .vStr "SECRET")])
     ∧ strContains (substUrlA "/v3/t/{xApiKey}"
         ([("page", JSParam.vStr "2")] ++ [("xApiKey", .vStr "SECRET")]))
         (encodeURIComponent "SECRET") = true) :=
  ⟨by decide, by decide, by decide,
   c10_api_key_injection.1 "SECRET" "/v3/t/{xApiKey}" [("page", JSParam.vStr "2")]
     (by decide) (by decide) (by decide)⟩
